import Mathlib

/-
  Verification development for the rs-quick-gfx 2D rendering library.

  Shallow embedding of the core subsystems:
  * `src/res/tex/glium_cache/binary_tree.rs` — the guillotine rectangle packer
    used by the texture atlas allocator;
  * `src/res/tex/glium_cache/mod.rs`        — the glium texture cache;
  * `src/res/font/glium_cache.rs`           — the glyph/font cache;
  * `src/renderer/mod.rs`                   — vertex draining and batching;
  * `src/renderer/controller.rs`            — text run geometry synthesis.

  Modelling conventions: the Rust `f32` UV coordinates are embedded as `ℚ`
  (the algorithms only add, subtract and compare coordinates); `usize`
  counters and handles are embedded as `Nat`; Rust `Result`/`Option`
  become `Except`/`Option`; a Rust panic (`unwrap` / `expect` failure)
  is embedded as an `Option.none` result of the whole operation.
-/

namespace QuickGfx

/-! ## binary_tree.rs — the bin-packing tree -/

/-- Error type of `BinaryTreeNode::pack_rect` (binary_tree.rs lines 8-13). -/
inductive PackRectError where
  | SpaceTooSmall
  deriving DecidableEq

/-- A UV rect, `[f32; 4]` in the source, stored XYWH (binary_tree.rs line 36). -/
structure Rect where
  x : ℚ
  y : ℚ
  w : ℚ
  h : ℚ
  deriving DecidableEq

/-- `BinaryTreeNode` (binary_tree.rs lines 31-40).  In the source a node has
`Option`al children and an `Option`al `tex_handle`; the only states reachable
through `new` and `pack_rect` are a childless node with no handle (a leaf)
and a node with both children and a handle set (`pack_rect` sets all three
together, and `debug_assert!` at lines 80-82 documents that no other shape
occurs).  The embedding represents exactly those two shapes. -/
inductive BinaryTreeNode where
  | leaf (space : Rect)
  | branch (space : Rect) (tex_handle : Nat) (l_child r_child : BinaryTreeNode)
  deriving DecidableEq

namespace BinaryTreeNode

/-- `BinaryTreeNode::is_leaf` (binary_tree.rs lines 53-55): true iff
`tex_handle` is `None`. -/
def is_leaf : BinaryTreeNode → Bool
  | .leaf _ => true
  | .branch _ _ _ _ => false

/-- `BinaryTreeNode::pack_rect` (binary_tree.rs lines 77-119).  The node is
mutated in place in Rust; here the updated node is returned next to the
packed rect.  On a non-leaf the call recurses into `r_child` first and falls
back to `l_child` on `SpaceTooSmall` (lines 83-89).  On a leaf, if the rect
does not fit, the error is returned (lines 93-95); otherwise the children
are created — `l_child` is the space below (same x, y + h, full width, rest
of the height), `r_child` the space to the right (x + w, same y, rest of the
width, full height of the node, line 108) — and the node's space is narrowed
to the packed rect (lines 99-118). -/
def pack_rect : BinaryTreeNode → ℚ → ℚ → Nat → Except PackRectError (Rect × BinaryTreeNode)
  | .branch space t l r, w, h, tex =>
    match pack_rect r w h tex with
    | .ok (rect, r') => .ok (rect, .branch space t l r')
    | .error _ =>
      match pack_rect l w h tex with
      | .ok (rect, l') => .ok (rect, .branch space t l' r)
      | .error e => .error e
  | .leaf space, w, h, tex =>
    if w > space.w ∨ h > space.h then .error .SpaceTooSmall
    else
      .ok (⟨space.x, space.y, w, h⟩,
        .branch ⟨space.x, space.y, w, h⟩ tex
          (.leaf ⟨space.x, space.y + h, space.w, space.h - h⟩)
          (.leaf ⟨space.x + w, space.y, space.w - w, space.h⟩))

/-- `BinaryTreeNode::rect_for` (binary_tree.rs lines 124-138): depth-first
search for the first node whose handle matches — own handle, then `l_child`,
then `r_child`; a leaf (handle `None`) answers `None` at once. -/
def rect_for : BinaryTreeNode → Nat → Option Rect
  | .leaf _, _ => none
  | .branch space t l r, tex =>
    if t = tex then some space
    else
      match rect_for l tex with
      | some res => some res
      | none => rect_for r tex

end BinaryTreeNode

/-- Helper for `TexHandleLookup::rect_for` on a `BinaryTree = Vec<BinaryTreeNode>`
(binary_tree.rs lines 148-154): scan the page trees in order, returning the
page index and rect of the first hit. -/
def rect_for_aux : Nat → List BinaryTreeNode → Nat → Option (Nat × Rect)
  | _, [], _ => none
  | ii, t :: rest, tex =>
    match t.rect_for tex with
    | some r => some (ii, r)
    | none => rect_for_aux (ii + 1) rest tex

/-- `TexHandleLookup::rect_for` for `BinaryTree` (binary_tree.rs lines 148-154). -/
def rect_for_trees (trees : List BinaryTreeNode) (tex : Nat) : Option (Nat × Rect) :=
  rect_for_aux 0 trees tex

/-- Run a sequence of `pack_rect` calls against one page's allocator tree,
collecting each call's result (the way `GliumTexCache` repeatedly packs
into one page). -/
def pack_seq : BinaryTreeNode → List (ℚ × ℚ × Nat) →
    BinaryTreeNode × List (Except PackRectError Rect)
  | n, [] => (n, [])
  | n, (w, h, tex) :: rest =>
    match n.pack_rect w h tex with
    | .ok (rect, n') =>
      let res := pack_seq n' rest
      (res.1, .ok rect :: res.2)
    | .error e =>
      let res := pack_seq n rest
      (res.1, .error e :: res.2)

/-- Two rects have intersecting interiors. -/
def rects_overlap (a b : Rect) : Prop :=
  a.x < b.x + b.w ∧ b.x < a.x + a.w ∧ a.y < b.y + b.h ∧ b.y < a.y + a.h

/-! ## res/tex/glium_cache/mod.rs — the glium texture cache -/

/-- `CacheTexError` (res/tex/mod.rs lines 14-35).  The payloads of the
`IoError`/`ImageError` variants are external error values and are not
modelled. -/
inductive CacheTexError where
  | CacheTooSmall
  | NoSpace
  | IoError
  | ImageError
  | DimensionsNotSupported
  deriving DecidableEq

/-- A decoded image as used by `cache_tex_internal`: only its dimensions
drive the modelled state (the pixel block goes to the GPU, which is not
modelled).  `image::load_from_memory` is external, so the routine's input
is the per-image decode result. -/
structure Img where
  w : Nat
  h : Nat
  deriving DecidableEq

/-- `GliumTexCache` (mod.rs lines 17-34).  `cache_textures` holds GPU
textures, so only its length is modelled; `bin_pack_trees` is behind an
`Arc`, whose live clone count (handed out by `get_tex_lookup`) is the
`lookup_clones` field. -/
structure GliumTexCache where
  max_cache_textures : Nat
  cache_texture_size : Nat × Nat
  num_cache_textures : Nat
  bin_pack_trees : List BinaryTreeNode
  next_tex_handle : Nat
  lookup_clones : Nat

/-- `GliumTexCache::new` (mod.rs lines 37-45). -/
def GliumTexCache.new : GliumTexCache :=
  { max_cache_textures := 0
    cache_texture_size := (2048, 2048)
    num_cache_textures := 0
    bin_pack_trees := []
    next_tex_handle := 0
    lookup_clones := 0 }

/-- `GliumTexCache::get_tex_lookup` (mod.rs lines 49-51): clones the `Arc`,
adding one live reference to the shared packing structure. -/
def GliumTexCache.get_tex_lookup (c : GliumTexCache) : GliumTexCache :=
  { c with lookup_clones := c.lookup_clones + 1 }

/-- `GliumTexCache::get_next_tex_handle` (mod.rs lines 53-57). -/
def get_next_tex_handle (c : GliumTexCache) : Nat × GliumTexCache :=
  (c.next_tex_handle, { c with next_tex_handle := c.next_tex_handle + 1 })

/-- The pack loop of `cache_tex_internal` (mod.rs lines 89-99): try
`pack_rect` against each existing page tree in order; on the first success
return the page index, the packed rect, and the updated tree list. -/
def pack_first : List BinaryTreeNode → ℚ → ℚ → Nat →
    Option (Nat × Rect × List BinaryTreeNode)
  | [], _, _, _ => none
  | t :: rest, w, h, tex =>
    match t.pack_rect w h tex with
    | .ok (rect, t') => some (0, rect, t' :: rest)
    | .error _ =>
      match pack_first rest w h tex with
      | some (ii, rect, rest') => some (ii + 1, rect, t :: rest')
      | none => none

/-- The per-image body of `GliumTexCache::cache_tex_internal` (mod.rs lines
65-153).  A `none` result is a panic: the `Arc::get_mut(..).expect(..)` at
lines 91-93 dies when a cloned lookup view is still alive, and the
`.unwrap()` at line 138 dies if packing into a brand-new page fails.  GPU
texture creation (lines 115-130) is modelled as succeeding: its
`DimensionsNotSupported` failure depends on the graphics backend, which is
external. -/
def cache_tex_one (c : GliumTexCache) (buf : Except CacheTexError Img) :
    Option (Except CacheTexError Nat × GliumTexCache) :=
  match buf with
  | .error e => some (.error e, c)
  | .ok img =>
    if img.w > c.cache_texture_size.1 ∨ img.h > c.cache_texture_size.2 then
      some (.error .CacheTooSmall, c)
    else
      let hc := get_next_tex_handle c
      let th := hc.1
      let c := hc.2
      if c.lookup_clones ≠ 0 then none
      else
        let nw : ℚ := (img.w : ℚ) / (c.cache_texture_size.1 : ℚ)
        let nh : ℚ := (img.h : ℚ) / (c.cache_texture_size.2 : ℚ)
        match pack_first c.bin_pack_trees nw nh th with
        | some (_, _, trees') => some (.ok th, { c with bin_pack_trees := trees' })
        | none =>
          if 0 < c.max_cache_textures ∧
              c.max_cache_textures ≤ c.num_cache_textures then
            some (.error .NoSpace, c)
          else
            match (BinaryTreeNode.leaf ⟨0, 0, 1, 1⟩).pack_rect nw nh th with
            | .ok (_, t') =>
              some (.ok th,
                { c with num_cache_textures := c.num_cache_textures + 1,
                         bin_pack_trees := c.bin_pack_trees ++ [t'] })
            | .error _ => none

/-- `GliumTexCache::cache_tex_internal` (mod.rs lines 61-156): process each
image in order, threading the cache state; a panic anywhere kills the whole
call. -/
def cache_tex_internal : GliumTexCache → List (Except CacheTexError Img) →
    Option (List (Except CacheTexError Nat) × GliumTexCache)
  | c, [] => some ([], c)
  | c, buf :: rest =>
    match cache_tex_one c buf with
    | none => none
    | some (res, c') =>
      match cache_tex_internal c' rest with
      | none => none
      | some (ress, c'') => some (res :: ress, c'')

/-- The state after issuing `n` texture handles through
`get_next_tex_handle`. -/
def tex_state_after (c : GliumTexCache) : Nat → GliumTexCache
  | 0 => c
  | n + 1 => (get_next_tex_handle (tex_state_after c n)).2

/-- The `n`-th texture handle issued by a cache instance (0-based). -/
def issued_tex_handle (c : GliumTexCache) (n : Nat) : Nat :=
  (get_next_tex_handle (tex_state_after c n)).1

/-! ## res/font/glium_cache.rs — the glyph/font cache -/

/-- `CacheGlyphError` (res/font/mod.rs lines 14-26). -/
inductive CacheGlyphError where
  | GlyphNotSupported (chars : List Char)
  | CacheTooSmall
  | IoError
  deriving DecidableEq

/-- A parsed rusttype font as `cache_glyphs` consults it: `glyphId c` is
`font.glyph(c).id().0`, where id 0 means the font does not map the
codepoint. -/
structure FontModel where
  glyphId : Char → Nat

/-- The external `rusttype::gpu_cache::Cache` as driven by `cache_glyphs`:
its queue of pending glyphs and the set of committed `(font handle,
codepoint)` entries.  `queue_glyph` appends to the queue, `clear_queue`
empties it, `cache_queued` commits the queue (modelled as succeeding), and
`rect_for` answers exactly the committed entries. -/
structure GpuCache where
  queue : List (Nat × Char)
  cached : List (Nat × Char)

/-- `GliumFontCache` (glium_cache.rs lines 21-32).  `glyph_lookup` is
behind an `Arc`; `lookup_clones` counts the live clones handed out by
`get_glyph_lookup`.  The font value stored in `fonts` keeps the scale pair
`(scale, scale)` as a single `ℚ`. -/
structure GliumFontCache where
  font_handles : List ((Nat × Nat) × Nat)
  curr_font_handle : Nat
  fonts : List (Nat × FontModel × ℚ)
  cache : GpuCache
  lookup_clones : Nat

/-- First-match association-list lookup, the embedding of `BTreeMap::get`
(insertion happens only when the key is absent, so keys are unique). -/
def assoc_find {α β : Type} [DecidableEq α] : List (α × β) → α → Option β
  | [], _ => none
  | (k, v) :: rest, a => if k = a then some v else assoc_find rest a

/-- `GliumFontCache::new` (glium_cache.rs lines 43-67). -/
def GliumFontCache.new : GliumFontCache :=
  { font_handles := []
    curr_font_handle := 0
    fonts := []
    cache := { queue := [], cached := [] }
    lookup_clones := 0 }

/-- `GliumFontCache::get_glyph_lookup` (glium_cache.rs lines 69-71): clones
the `Arc`, adding one live reference. -/
def GliumFontCache.get_glyph_lookup (c : GliumFontCache) : GliumFontCache :=
  { c with lookup_clones := c.lookup_clones + 1 }

/-- `GliumFontCache::get_next_font_handle` (glium_cache.rs lines 74-78). -/
def get_next_font_handle (c : GliumFontCache) : Nat × GliumFontCache :=
  (c.curr_font_handle, { c with curr_font_handle := c.curr_font_handle + 1 })

/-- `GliumFontCache::cache_glyphs` (glium_cache.rs lines 84-189).  The
filesystem and font parser are external: `disk` maps a file path to the
parsed font when open/read/parse succeed (lines 90-98; on `none` the call
returns `IoError`).  The `FontSpec` key is `(path, (scale*100.0) as u32)`
(line 102).  A fresh handle is allocated and registered for a new spec
*before* any codepoint is checked (lines 104-110).  The duplicate filter
(lines 115-127) keeps only the chars with no equal partner, so a char
occurring more than once in `charset` is dropped entirely.  The
`Arc::get_mut(..).expect(..)` at lines 129-131 is a panic (`none`) when a
cloned lookup view is alive.  Unmapped chars abort with `GlyphNotSupported`
after clearing the queue (lines 163-166); otherwise the queued glyphs are
committed (lines 170-182, `cache_queued` modelled as succeeding) and the
font is recorded under its handle if new (lines 184-186). -/
def cache_glyphs (disk : Nat → Option FontModel) (c : GliumFontCache)
    (filepath : Nat) (scale : ℚ) (charset : List Char) :
    Option (Except CacheGlyphError Nat × GliumFontCache) :=
  match disk filepath with
  | none => some (.error .IoError, c)
  | some font =>
    let fs : Nat × Nat := (filepath, (⌊scale * 100⌋).toNat)
    let fhc :=
      match assoc_find c.font_handles fs with
      | some fh => (fh, c)
      | none =>
        let hc := get_next_font_handle c
        (hc.1, { hc.2 with font_handles := hc.2.font_handles ++ [(fs, hc.1)] })
    let fh := fhc.1
    let c := fhc.2
    let no_dup := charset.filter (fun ch => charset.count ch == 1)
    if c.lookup_clones ≠ 0 then none
    else
      let glyphs_not_found := no_dup.filter (fun ch => font.glyphId ch == 0)
      let queued := no_dup.filter (fun ch =>
        font.glyphId ch != 0 && !(c.cache.cached.contains (fh, ch)))
      if glyphs_not_found ≠ [] then
        some (.error (.GlyphNotSupported glyphs_not_found),
          { c with cache := { queue := [], cached := c.cache.cached } })
      else
        let c := { c with cache :=
          { queue := [],
            cached := c.cache.cached ++ queued.map (fun ch => (fh, ch)) } }
        let c :=
          if (assoc_find c.fonts fh).isSome then c
          else { c with fonts := c.fonts ++ [(fh, font, scale)] }
        some (.ok fh, c)

/-- A glyph is queryable when the lookup path of `rect_for`
(glium_cache.rs lines 207-220 via `get_glyph`, lines 226-236) can answer
it: the handle's font is registered, the font maps the codepoint, and the
glyph has been committed to the gpu cache. -/
def glyph_queryable (c : GliumFontCache) (fh : Nat) (ch : Char) : Prop :=
  ∃ f s, assoc_find c.fonts fh = some (f, s) ∧ f.glyphId ch ≠ 0 ∧
    (fh, ch) ∈ c.cache.cached

/-- The state after issuing `n` font handles through
`get_next_font_handle`. -/
def font_state_after (c : GliumFontCache) : Nat → GliumFontCache
  | 0 => c
  | n + 1 => (get_next_font_handle (font_state_after c n)).2

/-- The `n`-th font handle issued by a cache instance (0-based). -/
def issued_font_handle (c : GliumFontCache) (n : Nat) : Nat :=
  (get_next_font_handle (font_state_after c n)).1

/-! ## renderer/mod.rs — vertex draining and batching -/

/-- `TexType` (mod.rs lines 24-27). -/
inductive TexType where
  | Texture
  | Font
  deriving DecidableEq

/-- `Vertex` (mod.rs lines 29-43). -/
structure Vertex where
  pos : ℚ × ℚ
  tex_coords : ℚ × ℚ
  col : ℚ × ℚ × ℚ × ℚ
  tex_type : TexType
  tex_ix : Nat
  deriving DecidableEq

/-- `VBO_SIZE` (mod.rs line 19): the fixed per-draw vertex-buffer capacity. -/
def VBO_SIZE : Nat := 65563

/-- The vertex the padding loop pushes (mod.rs lines 145-148). -/
def default_vertex : Vertex :=
  { pos := (0, 0), tex_coords := (0, 0), col := (0, 0, 0, 0),
    tex_type := .Texture, tex_ix := 0 }

/-- The `'Outer` placement loop of `recv_data` (mod.rs lines 118-132):
append the vertex to the first batch whose `(tex_ix, tex_type)` matches,
or push a fresh batch at the end. -/
def insert_vertex : List (Nat × TexType × List Vertex) → Vertex →
    List (Nat × TexType × List Vertex)
  | [], v => [(v.tex_ix, v.tex_type, [v])]
  | (id, tt, list) :: rest, v =>
    if id = v.tex_ix ∧ tt = v.tex_type then (id, tt, list ++ [v]) :: rest
    else (id, tt, list) :: insert_vertex rest v

/-- The draining and grouping phase of `Renderer::recv_data` (mod.rs lines
101-133): the channel is embedded as the list of messages available at call
time (`try_recv` never blocks, so exactly these are drained), and every
vertex of every drained packet is placed by `insert_vertex`. -/
def recv_group (msgs : List (List Vertex)) : List (Nat × TexType × List Vertex) :=
  msgs.flatten.foldl insert_vertex []

/-- The padding loop of `recv_data` (mod.rs lines 143-150): push default
vertices while the batch is shorter than `VBO_SIZE`.  There is no
truncation branch, so a longer batch is left as is. -/
def pad_batch (l : List Vertex) : List Vertex :=
  l ++ List.replicate (VBO_SIZE - l.length) default_vertex

/-- `Renderer::recv_data` (mod.rs lines 101-153) without the optional
`vbo_overflow_panic` feature: group the drained vertices, then pad every
batch. -/
def recv_data (msgs : List (List Vertex)) : List (Nat × TexType × List Vertex) :=
  (recv_group msgs).map (fun b => (b.1, b.2.1, pad_batch b.2.2))

/-- The overflow check compiled in only under the `vbo_overflow_panic`
feature (mod.rs lines 136-141): panic when some batch reaches `VBO_SIZE`. -/
def vbo_overflow_panics (batches : List (Nat × TexType × List Vertex)) : Prop :=
  ∃ b ∈ batches, VBO_SIZE ≤ b.2.2.length

/-- The vertices of the (unique) batch with the given key, `[]` when there
is none. -/
def batch_verts : List (Nat × TexType × List Vertex) → Nat → TexType → List Vertex
  | [], _, _ => []
  | (id', tt', list) :: rest, id, tt =>
    if id' = id ∧ tt' = tt then list else batch_verts rest id tt

/-- The batch keys of a grouped list. -/
def batch_keys (l : List (Nat × TexType × List Vertex)) : List (Nat × TexType) :=
  l.map (fun b => (b.1, b.2.1))

/-- Specification-side description of batch creation order: the distinct
`(tex_ix, tex_type)` keys of a vertex sequence, each at its first
occurrence. -/
def first_keys : List (Nat × TexType) → List Vertex → List (Nat × TexType)
  | acc, [] => acc
  | acc, v :: vs =>
    if (v.tex_ix, v.tex_type) ∈ acc then first_keys acc vs
    else first_keys (acc ++ [(v.tex_ix, v.tex_type)]) vs

/-! ## renderer/controller.rs — text runs -/

/-- `rusttype::HMetrics` of a scaled glyph as `text` reads it. -/
structure HMetrics where
  advance_width : ℚ
  left_side_bearing : ℚ

/-- The per-font data `text` consults, all external rusttype queries on the
scaled font: glyph ids (0 = unmapped), horizontal metrics, the integer
pixel bounding box `(min.x, min.y, max.x, max.y)` (`none` for invisible
glyphs), and pair kerning by glyph ids at the font's scale. -/
structure TextFont where
  glyphId : Char → Nat
  h_metrics : Char → HMetrics
  pixel_bb : Char → Option (ℤ × ℤ × ℤ × ℤ)
  pair_kerning : Nat → Nat → ℚ

/-- The `Arc<GliumGlyphLookup>` view `text` runs against (glium_cache.rs
lines 11-17): the font registry and the external rusttype cache's
`rect_for` answer — `none` for `Err(GlyphNotCached)`, `some none` for
`Ok(None)` (a glyph with no pixels, such as a space), `some (some uv)` for
`Ok(Some uv)` with the UV rect `[min.x, min.y, max.x, max.y]`. -/
structure GliumGlyphLookup where
  fonts : List (Nat × TextFont × ℚ)
  cache_rect : Nat → Char → Option (Option (ℚ × ℚ × ℚ × ℚ))

/-- `GlyphLookup::get_glyph` for the lookup view (glium_cache.rs lines
226-236): `none` when the handle has no font or the font does not map the
codepoint; otherwise the positioned glyph, represented by its font and
codepoint. -/
def get_glyph (L : GliumGlyphLookup) (fh : Nat) (c : Char) :
    Option (TextFont × Char) :=
  match assoc_find L.fonts fh with
  | none => none
  | some (f, _) => if f.glyphId c = 0 then none else some (f, c)

/-- `GlyphLookup::rect_for` for the lookup view (glium_cache.rs lines
207-220): error when the glyph is unavailable or not cached, otherwise the
cached answer. -/
def lookup_rect_for (L : GliumGlyphLookup) (fh : Nat) (c : Char) :
    Except Unit (Option (ℚ × ℚ × ℚ × ℚ)) :=
  match get_glyph L fh c with
  | none => .error ()
  | some _ =>
    match L.cache_rect fh c with
    | none => .error ()
    | some ro => .ok ro

/-- The running state of the `text` loop (controller.rs lines 367-370). -/
structure TextState where
  cursor : ℚ × ℚ
  last_glyph_id : Option Nat
  bb_x : ℚ
  bb_y : ℚ
  vertices : List Vertex

/-- One iteration of the `text` loop (controller.rs lines 371-464) for the
codepoint `c`.  `none` is a panic: the `.unwrap()` on the fallback glyph
(line 376) and on the fallback rect (line 398) both die when `'?'` is
unavailable.  The glyph (metrics, bounding box, id) falls back from `c` to
`'?'` when the font does not map `c`; the rect falls back from `c` to `'?'`
also when `c` was never cached.  A glyph whose cached rect is `Ok(None)`
only advances the cursor and bounding box (lines 402-407), applying no
kerning and leaving `last_glyph_id` unchanged. -/
def text_step (L : GliumGlyphLookup) (fh : Nat) (tint : ℚ × ℚ × ℚ × ℚ)
    (font : TextFont) (st : TextState) (c : Char) : Option TextState :=
  match (get_glyph L fh c).orElse (fun _ => get_glyph L fh '?') with
  | none => none
  | some (f, gc) =>
    let hm := f.h_metrics gc
    let bb := f.pixel_bb gc
    let x : ℚ := match bb with | some r => (r.1 : ℚ) | none => 0
    let y : ℚ := match bb with | some r => (r.2.1 : ℚ) | none => 0
    let w : ℚ := match bb with | some r => ((r.2.2.1 - r.1 : ℤ) : ℚ) | none => 0
    let h : ℚ := match bb with | some r => ((r.2.2.2 - r.2.1 : ℤ) : ℚ) | none => 0
    let st := { st with bb_y := max st.bb_y (y + h) }
    let rectRes :=
      match lookup_rect_for L fh c with
      | .ok ro => some ro
      | .error _ =>
        match lookup_rect_for L fh '?' with
        | .ok ro => some ro
        | .error _ => none
    match rectRes with
    | none => none
    | some none =>
      some { st with
        cursor := (st.cursor.1 + hm.left_side_bearing + hm.advance_width,
          st.cursor.2),
        bb_x := st.bb_x + hm.left_side_bearing + hm.advance_width }
    | some (some uv) =>
      let kern : ℚ :=
        match st.last_glyph_id with
        | some lg => font.pair_kerning lg (f.glyphId gc)
        | none => 0
      let cx := st.cursor.1 + kern + hm.left_side_bearing
      let cy := st.cursor.2
      let quad : List Vertex :=
        [ { pos := (x + cx, y + cy), col := tint, tex_type := .Font,
            tex_ix := 0, tex_coords := (uv.1, uv.2.1) },
          { pos := (x + cx + w, y + cy), col := tint, tex_type := .Font,
            tex_ix := 0, tex_coords := (uv.2.2.1, uv.2.1) },
          { pos := (x + cx + w, y + cy + h), col := tint, tex_type := .Font,
            tex_ix := 0, tex_coords := (uv.2.2.1, uv.2.2.2) },
          { pos := (x + cx, y + cy), col := tint, tex_type := .Font,
            tex_ix := 0, tex_coords := (uv.1, uv.2.1) },
          { pos := (x + cx, y + cy + h), col := tint, tex_type := .Font,
            tex_ix := 0, tex_coords := (uv.1, uv.2.2.2) },
          { pos := (x + cx + w, y + cy + h), col := tint, tex_type := .Font,
            tex_ix := 0, tex_coords := (uv.2.2.1, uv.2.2.2) } ]
      some { st with
        cursor := (cx + hm.advance_width, cy),
        last_glyph_id := some (f.glyphId gc),
        bb_x := st.bb_x + hm.advance_width,
        vertices := st.vertices ++ quad }

/-- `RendererController::text` (controller.rs lines 358-468): fetch the
handle's font (the `.unwrap()` at line 366 panics — `none` — when the
handle is unknown), walk the codepoints through `text_step`, and return
the accumulated bounding box next to the produced vertices. -/
def text (L : GliumGlyphLookup) (s : List Char) (pos : ℚ × ℚ) (fh : Nat)
    (tint : ℚ × ℚ × ℚ × ℚ) : Option (ℚ × ℚ × List Vertex) :=
  match assoc_find L.fonts fh with
  | none => none
  | some (font, _) =>
    match s.foldlM (text_step L fh tint font)
        (TextState.mk pos none 0 0 []) with
    | none => none
    | some st => some (st.bb_x, st.bb_y, st.vertices)

/-! ## Concrete fixtures used by witnesses and counterexamples -/

/-- A one-page 256×256 cache at its page cap of 1, whose single page is
completely occupied by one 256×256 texture (handle 0). -/
def full_tex_cache : GliumTexCache :=
  { max_cache_textures := 1
    cache_texture_size := (256, 256)
    num_cache_textures := 1
    bin_pack_trees :=
      [.branch ⟨0, 0, 1, 1⟩ 0 (.leaf ⟨0, 1, 1, 0⟩) (.leaf ⟨1, 0, 0, 1⟩)]
    next_tex_handle := 1
    lookup_clones := 0 }

/-- A font mapping no codepoint at all. -/
def font_unmapped : FontModel := ⟨fun _ => 0⟩

/-- A disk carrying `font_unmapped` at every path. -/
def disk_unmapped : Nat → Option FontModel := fun _ => some font_unmapped

/-- A font mapping `'a'` (glyph id 1) but not `'b'`. -/
def font_a_only : FontModel := ⟨fun ch => if ch = 'a' then 1 else 0⟩

/-- A disk carrying `font_a_only` at every path. -/
def disk_a_only : Nat → Option FontModel := fun _ => some font_a_only

/-- A font mapping every codepoint (glyph id 1). -/
def font_total : FontModel := ⟨fun _ => 1⟩

/-- A disk carrying `font_total` at every path. -/
def disk_total : Nat → Option FontModel := fun _ => some font_total

/-- Fixture vertices: key A is `(0, Texture)` (`vA1`, `vA2`, `vA3`), key B
is `(1, Texture)` (`vB1`, `vB2`); members are distinguished by position. -/
def vA1 : Vertex :=
  { pos := (1, 0), tex_coords := (0, 0), col := (0, 0, 0, 0),
    tex_type := .Texture, tex_ix := 0 }

/-- Second key-A fixture vertex. -/
def vA2 : Vertex := { vA1 with pos := (2, 0) }

/-- Third key-A fixture vertex. -/
def vA3 : Vertex := { vA1 with pos := (3, 0) }

/-- First key-B fixture vertex. -/
def vB1 : Vertex := { vA1 with pos := (4, 0), tex_ix := 1 }

/-- Second key-B fixture vertex. -/
def vB2 : Vertex := { vA1 with pos := (5, 0), tex_ix := 1 }

/-- A text-side font for the `text` fixtures: every codepoint has glyph
id 1 except `'?'` (glyph id 2); advance width 10, left side bearing 1,
pixel bounding box `(0, 0, 5, 5)`, no kerning. -/
def textfont_q : TextFont :=
  { glyphId := fun ch => if ch = '?' then 2 else 1
    h_metrics := fun _ => ⟨10, 1⟩
    pixel_bb := fun _ => some (0, 0, 5, 5)
    pair_kerning := fun _ _ => 0 }

/-- A lookup view where handle 0 carries `textfont_q` and *nothing* is
cached, `'?'` included. -/
def lookup_uncached : GliumGlyphLookup :=
  { fonts := [(0, textfont_q, 12)], cache_rect := fun _ _ => none }

/-- A lookup view where handle 0 carries `textfont_q` and only `'?'` is
cached, with UV rect `(0, 0, 1, 1)`. -/
def lookup_q : GliumGlyphLookup :=
  { fonts := [(0, textfont_q, 12)]
    cache_rect := fun _ ch => if ch = '?' then some (some (0, 0, 1, 1)) else none }

/-!
## Theorems
-/

/-- Claim C1 (code bug exhibit).  Packing, into a fresh full page
`(0, 0, 1, 1)`, first a 1/2 × 1/2 rect, then a 1/2 × 1 rect, then a
1 × 1/2 rect — all of positive width and height — succeeds for all three,
yet the second and third returned rects `(1/2, 0, 1/2, 1)` and
`(0, 1/2, 1, 1/2)` have overlapping interiors.  The cause: `pack_rect`
gives the right child the node's full height (`space_right[3] =
self.space[3]`, binary_tree.rs line 108) although its own doc comment
(lines 62-65) says the space on the right has the height of the packed
rect, so the two children share the diagonal remainder and hand it out
twice. -/
theorem C1_pack_overlap_bug :
    (0 : ℚ) < 1/2 ∧ (0 : ℚ) < 1 ∧
    (pack_seq (.leaf ⟨0, 0, 1, 1⟩)
        [(1/2, 1/2, 0), (1/2, 1, 1), (1, 1/2, 2)]).2 =
      [.ok ⟨0, 0, 1/2, 1/2⟩, .ok ⟨1/2, 0, 1/2, 1⟩, .ok ⟨0, 1/2, 1, 1/2⟩] ∧
    rects_overlap ⟨1/2, 0, 1/2, 1⟩ ⟨0, 1/2, 1, 1/2⟩ := by
  refine ⟨by norm_num, by norm_num, ?_, by norm_num [rects_overlap]⟩
  norm_num [pack_seq, BinaryTreeNode.pack_rect]

/-- Claim C2: `pack_rect(w, h)` on a leaf with space `(x, y, W, H)` fails
with `SpaceTooSmall` iff `w > W` or `h > H`; on success it returns
`(x, y, w, h)`, narrows the node to that rect, marks it occupied, and
creates the children — below `(x, y + h, W, H - h)` and right
`(x + w, y, W - w, H)`.  On an occupied node it tries the right child
first, tries below only when right fails, and fails only when both fail. -/
theorem C2_pack_rect_behavior (x y W H w h : ℚ) (tex : Nat) :
    (w > W ∨ h > H →
      BinaryTreeNode.pack_rect (.leaf ⟨x, y, W, H⟩) w h tex =
        .error .SpaceTooSmall) ∧
    (w ≤ W → h ≤ H →
      BinaryTreeNode.pack_rect (.leaf ⟨x, y, W, H⟩) w h tex =
        .ok (⟨x, y, w, h⟩,
          .branch ⟨x, y, w, h⟩ tex
            (.leaf ⟨x, y + h, W, H - h⟩)
            (.leaf ⟨x + w, y, W - w, H⟩))) ∧
    (∀ (s : Rect) (t : Nat) (l r : BinaryTreeNode),
      (∀ rect r', BinaryTreeNode.pack_rect r w h tex = .ok (rect, r') →
        BinaryTreeNode.pack_rect (.branch s t l r) w h tex =
          .ok (rect, .branch s t l r')) ∧
      (∀ e rect l', BinaryTreeNode.pack_rect r w h tex = .error e →
        BinaryTreeNode.pack_rect l w h tex = .ok (rect, l') →
        BinaryTreeNode.pack_rect (.branch s t l r) w h tex =
          .ok (rect, .branch s t l' r)) ∧
      (∀ e e', BinaryTreeNode.pack_rect r w h tex = .error e →
        BinaryTreeNode.pack_rect l w h tex = .error e' →
        BinaryTreeNode.pack_rect (.branch s t l r) w h tex =
          .error .SpaceTooSmall)) := by
  refine ⟨?_, ?_, ?_⟩
  · intro hbig
    simp [BinaryTreeNode.pack_rect, hbig]
  · intro hw hh
    have : ¬ (w > W ∨ h > H) := by push_neg; exact ⟨hw, hh⟩
    simp [BinaryTreeNode.pack_rect, this]
  · intro s t l r
    refine ⟨?_, ?_, ?_⟩
    · intro rect r' hr
      simp [BinaryTreeNode.pack_rect, hr]
    · intro e rect l' hr hl
      simp [BinaryTreeNode.pack_rect, hr, hl]
    · intro e e' hr hl
      cases e; cases e'
      simp [BinaryTreeNode.pack_rect, hr, hl]

/-- Witness for C2 at concrete inputs, discharging every hypothesis: a
2 × 1 rect fails on a unit leaf; a 1 × 1 rect succeeds on it; and on an
occupied node the right child is used when it fits, the below child when
only it fits, and failure propagates when neither fits. -/
theorem C2_witness :
    BinaryTreeNode.pack_rect (.leaf ⟨0, 0, 1, 1⟩) 2 1 7 =
      .error .SpaceTooSmall ∧
    BinaryTreeNode.pack_rect (.leaf ⟨0, 0, 1, 1⟩) 1 1 7 =
      .ok (⟨0, 0, 1, 1⟩,
        .branch ⟨0, 0, 1, 1⟩ 7
          (.leaf ⟨0, 0 + 1, 1, 1 - 1⟩)
          (.leaf ⟨0 + 1, 0, 1 - 1, 1⟩)) ∧
    BinaryTreeNode.pack_rect
        (.branch ⟨0, 0, 1/2, 1/2⟩ 0
          (.leaf ⟨0, 1/2, 1, 1/2⟩) (.leaf ⟨1/2, 0, 1/2, 1⟩)) (1/2) 1 8 =
      .ok (⟨1/2, 0, 1/2, 1⟩,
        .branch ⟨0, 0, 1/2, 1/2⟩ 0
          (.leaf ⟨0, 1/2, 1, 1/2⟩)
          (.branch ⟨1/2, 0, 1/2, 1⟩ 8
            (.leaf ⟨1/2, 0 + 1, 1/2, 1 - 1⟩)
            (.leaf ⟨1/2 + 1/2, 0, 1/2 - 1/2, 1⟩))) ∧
    BinaryTreeNode.pack_rect
        (.branch ⟨0, 0, 1/2, 1/2⟩ 0
          (.leaf ⟨0, 1/2, 1, 1/2⟩) (.leaf ⟨1/2, 0, 1/2, 1⟩)) 1 (1/2) 9 =
      .ok (⟨0, 1/2, 1, 1/2⟩,
        .branch ⟨0, 0, 1/2, 1/2⟩ 0
          (.branch ⟨0, 1/2, 1, 1/2⟩ 9
            (.leaf ⟨0, 1/2 + 1/2, 1, 1/2 - 1/2⟩)
            (.leaf ⟨0 + 1, 1/2, 1 - 1, 1/2⟩))
          (.leaf ⟨1/2, 0, 1/2, 1⟩)) ∧
    BinaryTreeNode.pack_rect
        (.branch ⟨0, 0, 1/2, 1/2⟩ 0
          (.leaf ⟨0, 1/2, 1, 1/2⟩) (.leaf ⟨1/2, 0, 1/2, 1⟩)) 2 2 10 =
      .error .SpaceTooSmall := by
  refine ⟨(C2_pack_rect_behavior 0 0 1 1 2 1 7).1 (by norm_num),
    (C2_pack_rect_behavior 0 0 1 1 1 1 7).2.1 le_rfl le_rfl,
    ((C2_pack_rect_behavior 0 0 1 1 (1/2) 1 8).2.2 ⟨0, 0, 1/2, 1/2⟩ 0
        (.leaf ⟨0, 1/2, 1, 1/2⟩) (.leaf ⟨1/2, 0, 1/2, 1⟩)).1
      ⟨1/2, 0, 1/2, 1⟩ _ (by norm_num [BinaryTreeNode.pack_rect]),
    ((C2_pack_rect_behavior 0 0 1 1 1 (1/2) 9).2.2 ⟨0, 0, 1/2, 1/2⟩ 0
        (.leaf ⟨0, 1/2, 1, 1/2⟩) (.leaf ⟨1/2, 0, 1/2, 1⟩)).2.1
      .SpaceTooSmall ⟨0, 1/2, 1, 1/2⟩ _
      (by norm_num [BinaryTreeNode.pack_rect])
      (by norm_num [BinaryTreeNode.pack_rect]),
    ((C2_pack_rect_behavior 0 0 1 1 2 2 10).2.2 ⟨0, 0, 1/2, 1/2⟩ 0
        (.leaf ⟨0, 1/2, 1, 1/2⟩) (.leaf ⟨1/2, 0, 1/2, 1⟩)).2.2
      .SpaceTooSmall .SpaceTooSmall
      (by norm_num [BinaryTreeNode.pack_rect])
      (by norm_num [BinaryTreeNode.pack_rect])⟩

/-! ### Handle issue sequences (C8) -/

/-- Issuing texture handles only bumps the counter: after `n` issues the
next handle is the original counter plus `n`. -/
theorem tex_state_after_next (c : GliumTexCache) :
    ∀ n, (tex_state_after c n).next_tex_handle = c.next_tex_handle + n := by
  intro n
  induction n with
  | zero => rfl
  | succ n ih =>
    simp [tex_state_after, get_next_tex_handle, ih]
    omega

/-- Same bookkeeping for font handles. -/
theorem font_state_after_next (c : GliumFontCache) :
    ∀ n, (font_state_after c n).curr_font_handle = c.curr_font_handle + n := by
  intro n
  induction n with
  | zero => rfl
  | succ n ih =>
    simp [font_state_after, get_next_font_handle, ih]
    omega

/-- The `n`-th issued texture handle is the starting counter plus `n`. -/
theorem issued_tex_handle_eq (c : GliumTexCache) (n : Nat) :
    issued_tex_handle c n = c.next_tex_handle + n := by
  simp [issued_tex_handle, get_next_tex_handle, tex_state_after_next]

/-- The `n`-th issued font handle is the starting counter plus `n`. -/
theorem issued_font_handle_eq (c : GliumFontCache) (n : Nat) :
    issued_font_handle c n = c.curr_font_handle + n := by
  simp [issued_font_handle, get_next_font_handle, font_state_after_next]

/-- Claim C8: within one cache instance, each `TexHandle` (resp.
`FontHandle`) issued by `get_next_tex_handle` (resp.
`get_next_font_handle`) is strictly greater than every previously issued
one, and no handle value is ever issued twice. -/
theorem C8_handles_monotone (cT : GliumTexCache) (cF : GliumFontCache)
    (i j : Nat) (hij : i < j) :
    issued_tex_handle cT i < issued_tex_handle cT j ∧
    issued_tex_handle cT i ≠ issued_tex_handle cT j ∧
    issued_font_handle cF i < issued_font_handle cF j ∧
    issued_font_handle cF i ≠ issued_font_handle cF j := by
  simp only [issued_tex_handle_eq, issued_font_handle_eq]
  omega

/-- Witness for C8: the 0th and 2nd handles issued by fresh caches. -/
theorem C8_witness :
    issued_tex_handle GliumTexCache.new 0 < issued_tex_handle GliumTexCache.new 2 ∧
    issued_tex_handle GliumTexCache.new 0 ≠ issued_tex_handle GliumTexCache.new 2 ∧
    issued_font_handle GliumFontCache.new 0 < issued_font_handle GliumFontCache.new 2 ∧
    issued_font_handle GliumFontCache.new 0 ≠ issued_font_handle GliumFontCache.new 2 :=
  C8_handles_monotone GliumTexCache.new GliumFontCache.new 0 2 (by decide)

/-! ### The page cap (C5) -/

/-- Claim C5: when an image fits the configured page size but no existing
page's allocator accepts it and the nonzero page cap is already reached,
`cache_tex_internal`'s per-image step fails with `NoSpace`, creates no new
page, leaves every page tree unchanged, and every previously returned
handle still looks up to its old rect. -/
theorem C5_no_space_preserves (c : GliumTexCache) (img : Img)
    (hclones : c.lookup_clones = 0)
    (hw : img.w ≤ c.cache_texture_size.1)
    (hh : img.h ≤ c.cache_texture_size.2)
    (hpack : pack_first c.bin_pack_trees
        ((img.w : ℚ) / (c.cache_texture_size.1 : ℚ))
        ((img.h : ℚ) / (c.cache_texture_size.2 : ℚ)) c.next_tex_handle = none)
    (hcap : 0 < c.max_cache_textures)
    (hfull : c.max_cache_textures ≤ c.num_cache_textures) :
    ∃ c', cache_tex_one c (.ok img) = some (.error .NoSpace, c') ∧
      c'.num_cache_textures = c.num_cache_textures ∧
      c'.bin_pack_trees = c.bin_pack_trees ∧
      ∀ th r, rect_for_trees c.bin_pack_trees th = some r →
        rect_for_trees c'.bin_pack_trees th = some r := by
  have hbig : ¬ (img.w > c.cache_texture_size.1 ∨
      img.h > c.cache_texture_size.2) := by omega
  refine ⟨{ c with next_tex_handle := c.next_tex_handle + 1 }, ?_, rfl, rfl,
    fun th r h => h⟩
  simp [cache_tex_one, get_next_tex_handle, hbig, hclones, hpack, hcap, hfull]

/-- Witness for C5: a 64×64 request against the full one-page 256×256
cache at its cap fails with `NoSpace` and changes no page state. -/
theorem C5_witness :
    ∃ c', cache_tex_one full_tex_cache (.ok ⟨64, 64⟩) =
        some (.error .NoSpace, c') ∧
      c'.num_cache_textures = full_tex_cache.num_cache_textures ∧
      c'.bin_pack_trees = full_tex_cache.bin_pack_trees ∧
      ∀ th r, rect_for_trees full_tex_cache.bin_pack_trees th = some r →
        rect_for_trees c'.bin_pack_trees th = some r :=
  C5_no_space_preserves full_tex_cache ⟨64, 64⟩ rfl (by decide) (by decide)
    (by norm_num [full_tex_cache, pack_first, BinaryTreeNode.pack_rect])
    (by decide) (by decide)

/-! ### Live lookup views and the mutable-access panic (C10) -/

/-- Normalized dimensions of an image that passed the size check are at
most 1, so packing it into a brand-new page's unit leaf cannot fail. -/
theorem norm_dim_le_one (w sw : Nat) (h : w ≤ sw) : (w : ℚ) / (sw : ℚ) ≤ 1 := by
  rcases Nat.eq_zero_or_pos sw with h0 | hpos
  · subst h0
    have hw0 : w = 0 := Nat.le_zero.mp h
    simp [hw0]
  · rw [div_le_one (by exact_mod_cast hpos)]
    exact_mod_cast h

/-- With no live lookup clone, the per-image step of `cache_tex_internal`
never panics, and it hands the clone count on unchanged. -/
theorem cache_tex_one_no_panic (c : GliumTexCache)
    (buf : Except CacheTexError Img) (h : c.lookup_clones = 0) :
    ∃ res c', cache_tex_one c buf = some (res, c') ∧ c'.lookup_clones = 0 := by
  match buf with
  | .error e => exact ⟨.error e, c, rfl, h⟩
  | .ok img =>
    by_cases hbig : img.w > c.cache_texture_size.1 ∨
        img.h > c.cache_texture_size.2
    · exact ⟨.error .CacheTooSmall, c, by simp [cache_tex_one, hbig], h⟩
    · have hnw : (img.w : ℚ) / (c.cache_texture_size.1 : ℚ) ≤ 1 :=
        norm_dim_le_one _ _ (by omega)
      have hnh : (img.h : ℚ) / (c.cache_texture_size.2 : ℚ) ≤ 1 :=
        norm_dim_le_one _ _ (by omega)
      have hfit : ¬ ((img.w : ℚ) / (c.cache_texture_size.1 : ℚ) > 1 ∨
          (img.h : ℚ) / (c.cache_texture_size.2 : ℚ) > 1) := by
        push_neg
        exact ⟨hnw, hnh⟩
      rcases hp : pack_first c.bin_pack_trees
          ((img.w : ℚ) / (c.cache_texture_size.1 : ℚ))
          ((img.h : ℚ) / (c.cache_texture_size.2 : ℚ)) c.next_tex_handle with
        _ | ⟨ii, rect, trees'⟩
      · by_cases hcap : 0 < c.max_cache_textures ∧
            c.max_cache_textures ≤ c.num_cache_textures
        · refine ⟨.error .NoSpace,
            { c with next_tex_handle := c.next_tex_handle + 1 }, ?_, h⟩
          simp [cache_tex_one, get_next_tex_handle, hbig, h, hp, hcap]
        · refine ⟨.ok c.next_tex_handle,
            { c with next_tex_handle := c.next_tex_handle + 1,
                     num_cache_textures := c.num_cache_textures + 1,
                     bin_pack_trees := c.bin_pack_trees ++
                       [.branch ⟨0, 0, (img.w : ℚ) / (c.cache_texture_size.1 : ℚ),
                           (img.h : ℚ) / (c.cache_texture_size.2 : ℚ)⟩
                         c.next_tex_handle
                         (.leaf ⟨0, (img.h : ℚ) / (c.cache_texture_size.2 : ℚ), 1,
                           1 - (img.h : ℚ) / (c.cache_texture_size.2 : ℚ)⟩)
                         (.leaf ⟨(img.w : ℚ) / (c.cache_texture_size.1 : ℚ), 0,
                           1 - (img.w : ℚ) / (c.cache_texture_size.1 : ℚ), 1⟩)] },
            ?_, h⟩
          simp [cache_tex_one, get_next_tex_handle, hbig, h, hp, hcap,
            BinaryTreeNode.pack_rect, hfit]
      · refine ⟨.ok c.next_tex_handle,
          { c with next_tex_handle := c.next_tex_handle + 1,
                   bin_pack_trees := trees' }, ?_, h⟩
        simp [cache_tex_one, get_next_tex_handle, hbig, h, hp]

/-- With no live lookup clone, a whole `cache_tex_internal` call never
panics. -/
theorem cache_tex_internal_no_panic :
    ∀ (bufs : List (Except CacheTexError Img)) (c : GliumTexCache),
      c.lookup_clones = 0 → (cache_tex_internal c bufs).isSome
  | [], c, _ => by simp [cache_tex_internal]
  | buf :: rest, c, h => by
    obtain ⟨res, c', heq, h'⟩ := cache_tex_one_no_panic c buf h
    have ih := cache_tex_internal_no_panic rest c' h'
    obtain ⟨p, hp⟩ := Option.isSome_iff_exists.mp ih
    simp [cache_tex_internal, heq, hp]

/-- Claim C10 counterexample: with a cloned lookup view alive, a
`cache_tex_from_bytes` call with an empty byte list completes without the
panic, and a `cache_glyphs` call whose font file fails to open returns
`IoError` without the panic — so a live view does not make every caching
call panic, and completing without the panic does not require that no
other reference exists. -/
theorem C10_counterexample :
    GliumTexCache.new.get_tex_lookup.lookup_clones ≠ 0 ∧
    cache_tex_internal GliumTexCache.new.get_tex_lookup [] =
      some ([], GliumTexCache.new.get_tex_lookup) ∧
    GliumFontCache.new.get_glyph_lookup.lookup_clones ≠ 0 ∧
    cache_glyphs (fun _ => none) GliumFontCache.new.get_glyph_lookup 0 12
        ['a'] =
      some (.error .IoError, GliumFontCache.new.get_glyph_lookup) :=
  ⟨by decide, rfl, by decide, rfl⟩

/-- Claim C10 (amended): a caching call that reaches the shared packing
structure — for the texture cache, one processing at least one decoded,
size-admissible image; for the font cache, one whose font file loads —
panics at `Arc::get_mut` exactly when a cloned lookup view is alive;
with no live clone, no caching call ever hits this panic. -/
theorem C10_lookup_view_panic :
    (∀ (c : GliumTexCache) (img : Img)
        (rest : List (Except CacheTexError Img)),
      c.lookup_clones ≠ 0 →
      img.w ≤ c.cache_texture_size.1 → img.h ≤ c.cache_texture_size.2 →
      cache_tex_internal c (.ok img :: rest) = none) ∧
    (∀ (c : GliumTexCache) (bufs : List (Except CacheTexError Img)),
      c.lookup_clones = 0 → (cache_tex_internal c bufs).isSome) ∧
    (∀ (disk : Nat → Option FontModel) (c : GliumFontCache) (p : Nat)
        (s : ℚ) (cs : List Char) (font : FontModel),
      c.lookup_clones ≠ 0 → disk p = some font →
      cache_glyphs disk c p s cs = none) ∧
    (∀ (disk : Nat → Option FontModel) (c : GliumFontCache) (p : Nat)
        (s : ℚ) (cs : List Char),
      c.lookup_clones = 0 → (cache_glyphs disk c p s cs).isSome) := by
  refine ⟨?_, fun c bufs h => cache_tex_internal_no_panic bufs c h, ?_, ?_⟩
  · intro c img rest hcl hw hh
    have hbig : ¬ (img.w > c.cache_texture_size.1 ∨
        img.h > c.cache_texture_size.2) := by omega
    have hone : cache_tex_one c (.ok img) = none := by
      simp [cache_tex_one, get_next_tex_handle, hbig, hcl]
    simp [cache_tex_internal, hone]
  · intro disk c p s cs font hcl hdisk
    rcases hfind : assoc_find c.font_handles (p, (⌊s * 100⌋).toNat) with
      _ | fh
    · simp [cache_glyphs, hdisk, hfind, get_next_font_handle, hcl]
    · simp [cache_glyphs, hdisk, hfind, hcl]
  · intro disk c p s cs hcl
    rcases hdisk : disk p with _ | font
    · simp [cache_glyphs, hdisk]
    · rcases hfind : assoc_find c.font_handles (p, (⌊s * 100⌋).toNat) with
        _ | fh
      · simp [cache_glyphs, hdisk, hfind, get_next_font_handle, hcl]
        split <;> simp
      · simp [cache_glyphs, hdisk, hfind, hcl]
        split <;> simp

/-- Witness for C10 at concrete inputs: a live clone makes a one-image
call panic; without clones the same calls return. -/
theorem C10_witness :
    cache_tex_internal { GliumTexCache.new with lookup_clones := 1 }
      [.ok ⟨1, 1⟩] = none ∧
    (cache_tex_internal GliumTexCache.new [.ok ⟨1, 1⟩]).isSome ∧
    cache_glyphs disk_total
      { GliumFontCache.new with lookup_clones := 1 } 0 12 ['a'] = none ∧
    (cache_glyphs disk_total GliumFontCache.new 0 12 ['a']).isSome :=
  ⟨C10_lookup_view_panic.1 _ ⟨1, 1⟩ [] (by decide) (by decide) (by decide),
    C10_lookup_view_panic.2.1 _ [.ok ⟨1, 1⟩] rfl,
    C10_lookup_view_panic.2.2.1 disk_total _ 0 12 ['a'] font_total
      (by decide) rfl,
    C10_lookup_view_panic.2.2.2 disk_total _ 0 12 ['a'] rfl⟩

/-! ### Draining and batching (C6, C7) -/

/-- Placing one vertex extends exactly its own key's batch. -/
theorem batch_verts_insert (l : List (Nat × TexType × List Vertex))
    (v : Vertex) (id : Nat) (tt : TexType) :
    batch_verts (insert_vertex l v) id tt =
      batch_verts l id tt ++
        if v.tex_ix = id ∧ v.tex_type = tt then [v] else [] := by
  induction l with
  | nil =>
    by_cases h : v.tex_ix = id ∧ v.tex_type = tt <;>
      simp [insert_vertex, batch_verts, h]
  | cons head rest ih =>
    obtain ⟨id', tt', lst⟩ := head
    by_cases h : id' = v.tex_ix ∧ tt' = v.tex_type
    · obtain ⟨rfl, rfl⟩ := h
      by_cases h2 : v.tex_ix = id ∧ v.tex_type = tt
      · obtain ⟨rfl, rfl⟩ := h2
        simp [insert_vertex, batch_verts]
      · simp [insert_vertex, batch_verts, h2]
    · by_cases h2 : id' = id ∧ tt' = tt
      · have hv : ¬ (v.tex_ix = id ∧ v.tex_type = tt) := by
          intro hc
          exact h ⟨h2.1.trans hc.1.symm, h2.2.trans hc.2.symm⟩
        have h' : ¬ (id = v.tex_ix ∧ tt = v.tex_type) := fun hc =>
          hv ⟨hc.1.symm, hc.2.symm⟩
        simp [insert_vertex, batch_verts, h', h2, hv]
      · simp [insert_vertex, batch_verts, h, h2, ih]

/-- Folding vertices into batches: each key's batch collects exactly the
vertices with that key, in order. -/
theorem batch_verts_foldl (vs : List Vertex) :
    ∀ (acc : List (Nat × TexType × List Vertex)) (id : Nat) (tt : TexType),
      batch_verts (vs.foldl insert_vertex acc) id tt =
        batch_verts acc id tt ++
          vs.filter (fun v => v.tex_ix = id ∧ v.tex_type = tt) := by
  induction vs with
  | nil => simp
  | cons v vs ih =>
    intro acc id tt
    simp only [List.foldl_cons, ih, batch_verts_insert, List.filter_cons]
    by_cases h : v.tex_ix = id ∧ v.tex_type = tt <;> simp [h]

/-- The batch of a key after `recv_group` is the key's subsequence of the
drained vertices. -/
theorem recv_group_batch (msgs : List (List Vertex)) (id : Nat) (tt : TexType) :
    batch_verts (recv_group msgs) id tt =
      msgs.flatten.filter (fun v => v.tex_ix = id ∧ v.tex_type = tt) := by
  simp [recv_group, batch_verts_foldl, batch_verts]

/-- Placing a vertex keeps the key list, appending its key only when new. -/
theorem batch_keys_insert (l : List (Nat × TexType × List Vertex)) (v : Vertex) :
    batch_keys (insert_vertex l v) =
      if (v.tex_ix, v.tex_type) ∈ batch_keys l then batch_keys l
      else batch_keys l ++ [(v.tex_ix, v.tex_type)] := by
  induction l with
  | nil => simp [insert_vertex, batch_keys]
  | cons head rest ih =>
    obtain ⟨id', tt', lst⟩ := head
    by_cases h : id' = v.tex_ix ∧ tt' = v.tex_type
    · obtain ⟨rfl, rfl⟩ := h
      simp [insert_vertex, batch_keys]
    · have hne : ((v.tex_ix, v.tex_type) : Nat × TexType) ≠ (id', tt') := by
        intro he
        cases he
        exact h ⟨rfl, rfl⟩
      simp only [insert_vertex, if_neg h, batch_keys, List.map_cons] at ih ⊢
      rw [ih]
      by_cases hm : (v.tex_ix, v.tex_type) ∈
          List.map (fun b => (b.1, b.2.1)) rest
      · rw [if_pos hm, if_pos (List.mem_cons_of_mem _ hm)]
      · rw [if_neg hm, if_neg (by simp [hne, hm])]
        simp

/-- The keys after the grouping fold are the first-occurrence keys of the
vertex sequence. -/
theorem batch_keys_foldl (vs : List Vertex) :
    ∀ acc : List (Nat × TexType × List Vertex),
      batch_keys (vs.foldl insert_vertex acc) = first_keys (batch_keys acc) vs := by
  induction vs with
  | nil => simp [first_keys]
  | cons v vs ih =>
    intro acc
    simp only [List.foldl_cons, ih, batch_keys_insert, first_keys]
    by_cases hm : (v.tex_ix, v.tex_type) ∈ batch_keys acc <;> simp [hm]

/-- `first_keys` keeps an accumulator without duplicates duplicate-free. -/
theorem first_keys_nodup (vs : List Vertex) :
    ∀ acc : List (Nat × TexType), acc.Nodup → (first_keys acc vs).Nodup := by
  induction vs with
  | nil => simp [first_keys]
  | cons v vs ih =>
    intro acc hacc
    by_cases hm : (v.tex_ix, v.tex_type) ∈ acc <;> simp only [first_keys, hm,
      if_true, if_false]
    · exact ih acc hacc
    · exact ih _ (by simp [List.nodup_append, hacc, hm])

/-- Claim C6: `recv_data`'s draining loop consumes exactly the available
messages (embedded as the call-time channel content) and groups every
vertex into the batch of its `(tex_ix, tex_type)` key: each key's batch is
precisely its subsequence of the drained vertices in submission order, a
key has at most one batch, batches appear in first-encounter order, and
draining the keyed sequence `[A, A, B, A, B]` yields exactly the 2 batches
`[A, A, A]` and `[B, B]`. -/
theorem C6_recv_data_grouping :
    (∀ (msgs : List (List Vertex)) (id : Nat) (tt : TexType),
      batch_verts (recv_group msgs) id tt =
        msgs.flatten.filter (fun v => v.tex_ix = id ∧ v.tex_type = tt)) ∧
    (∀ msgs : List (List Vertex), (batch_keys (recv_group msgs)).Nodup) ∧
    (∀ msgs : List (List Vertex),
      batch_keys (recv_group msgs) = first_keys [] msgs.flatten) ∧
    recv_group [[vA1, vA2, vB1], [vA3, vB2]] =
      [(0, .Texture, [vA1, vA2, vA3]), (1, .Texture, [vB1, vB2])] := by
  refine ⟨recv_group_batch, ?_, ?_, ?_⟩
  · intro msgs
    unfold recv_group
    rw [batch_keys_foldl]
    exact first_keys_nodup _ _ (by simp [batch_keys])
  · intro msgs
    unfold recv_group
    rw [batch_keys_foldl]
    rfl
  · rfl

/-- A batch absorbs a run of vertices with its own key one by one. -/
theorem foldl_insert_replicate (v : Vertex) :
    ∀ (n : Nat) (l : List Vertex),
      (List.replicate n v).foldl insert_vertex [(v.tex_ix, v.tex_type, l)] =
        [(v.tex_ix, v.tex_type, l ++ List.replicate n v)] := by
  intro n
  induction n with
  | zero => simp
  | succ n ih =>
    intro l
    have hstep : insert_vertex [(v.tex_ix, v.tex_type, l)] v =
        [(v.tex_ix, v.tex_type, l ++ [v])] := by
      simp [insert_vertex]
    rw [List.replicate_succ, List.foldl_cons, hstep, ih]
    simp

/-- Draining one packet holding `n + 1` copies of a vertex yields a single
batch holding all of them. -/
theorem recv_group_replicate (v : Vertex) (n : Nat) :
    recv_group [List.replicate (n + 1) v] =
      [(v.tex_ix, v.tex_type, List.replicate (n + 1) v)] := by
  have h1 : ([List.replicate (n + 1) v]).flatten = List.replicate (n + 1) v := by
    simp
  have hstep : insert_vertex [] v = [(v.tex_ix, v.tex_type, [v])] := rfl
  unfold recv_group
  rw [h1, List.replicate_succ, List.foldl_cons, hstep,
    foldl_insert_replicate v n [v]]
  simp [List.replicate_succ]

/-- Claim C7 counterexample: a drained batch of `VBO_SIZE + 1` vertices
still has `VBO_SIZE + 1` vertices after `recv_data` — it is neither
truncated to capacity nor (without the optional `vbo_overflow_panic`
feature) a fatal error, so not every batch ends at exactly `VBO_SIZE`. -/
theorem C7_counterexample :
    (recv_data [List.replicate (VBO_SIZE + 1) vA1]).map
        (fun b => b.2.2.length) = [VBO_SIZE + 1] ∧
    VBO_SIZE + 1 ≠ VBO_SIZE := by
  constructor
  · have h := recv_group_replicate vA1 VBO_SIZE
    have hlen : (pad_batch (List.replicate (VBO_SIZE + 1) vA1)).length =
        VBO_SIZE + 1 := by
      simp only [pad_batch, List.length_append, List.length_replicate]
      omega
    unfold recv_data
    rw [h]
    simp only [List.map_cons, List.map_nil]
    rw [hlen]
  · omega

/-- Claim C7 (amended): after `recv_data`, a batch that drained at most
`VBO_SIZE` vertices is padded to exactly `VBO_SIZE`, its drained vertices
first in order followed by padding vertices; a batch that drained more
than `VBO_SIZE` vertices is passed through unchanged — no truncation and,
without the optional `vbo_overflow_panic` feature (which would panic),
no error. -/
theorem C7_padding (msgs : List (List Vertex)) (id : Nat) (tt : TexType)
    (l : List Vertex) (hmem : (id, tt, l) ∈ recv_group msgs) :
    ((id, tt, pad_batch l) ∈ recv_data msgs) ∧
    (l.length ≤ VBO_SIZE →
      (pad_batch l).length = VBO_SIZE ∧ (pad_batch l).take l.length = l) ∧
    (VBO_SIZE < l.length → pad_batch l = l) := by
  refine ⟨List.mem_map_of_mem _ hmem, fun h => ⟨?_, ?_⟩, fun h => ?_⟩
  · simp only [pad_batch, List.length_append, List.length_replicate]
    omega
  · simp [pad_batch, List.take_left]
  · simp [pad_batch, Nat.sub_eq_zero_of_le (le_of_lt h)]

/-- Witness for C7: a one-vertex batch is padded to exactly `VBO_SIZE`
with the vertex kept in front, and an oversize `VBO_SIZE + 1` batch is
passed through unchanged. -/
theorem C7_witness :
    ((0, TexType.Texture, pad_batch [vA1]) ∈ recv_data [[vA1]]) ∧
    (pad_batch [vA1]).length = VBO_SIZE ∧
    (pad_batch [vA1]).take 1 = [vA1] ∧
    pad_batch (List.replicate (VBO_SIZE + 1) vA2) =
      List.replicate (VBO_SIZE + 1) vA2 := by
  have hmem : ((0 : Nat), TexType.Texture, [vA1]) ∈ recv_group [[vA1]] := by
    simp [recv_group, insert_vertex, vA1]
  have h := C7_padding [[vA1]] 0 .Texture [vA1] hmem
  have hmem2 : ((0 : Nat), TexType.Texture,
      List.replicate (VBO_SIZE + 1) vA2) ∈
        recv_group [List.replicate (VBO_SIZE + 1) vA2] := by
    rw [recv_group_replicate vA2 VBO_SIZE]
    simp [vA2, vA1]
  have h2 := C7_padding [List.replicate (VBO_SIZE + 1) vA2] 0 .Texture _ hmem2
  have hone : ([vA1]).length ≤ VBO_SIZE := by
    simp only [List.length_singleton, VBO_SIZE]
    omega
  refine ⟨h.1, (h.2.1 hone).1, ?_, ?_⟩
  · have := (h.2.1 hone).2
    simpa using this
  · refine h2.2.2 ?_
    simp only [List.length_replicate]
    omega

/-! ### cache_glyphs failure atomicity (C3) -/

/-- Appending a fresh binding does not change other keys' lookups. -/
theorem assoc_find_append_ne {α β : Type} [DecidableEq α]
    (l : List (α × β)) (k : α) (v : β) (a : α) (h : a ≠ k) :
    assoc_find (l ++ [(k, v)]) a = assoc_find l a := by
  induction l with
  | nil =>
    have : k ≠ a := fun he => h he.symm
    simp [assoc_find, this]
  | cons hd rest ih =>
    obtain ⟨k', v'⟩ := hd
    by_cases hk : k' = a <;> simp [assoc_find, hk, ih]

/-- Appending a binding for an absent key makes it found. -/
theorem assoc_find_append_self {α β : Type} [DecidableEq α]
    (l : List (α × β)) (k : α) (v : β) (h : assoc_find l k = none) :
    assoc_find (l ++ [(k, v)]) k = some v := by
  induction l with
  | nil => simp [assoc_find]
  | cons hd rest ih =>
    obtain ⟨k', v'⟩ := hd
    by_cases hk : k' = k
    · simp [assoc_find, hk] at h
    · simp [assoc_find, hk] at h ⊢
      exact ih h

/-- Claim C3 counterexample.  First: a charset consisting of one unmapped
codepoint written twice makes `cache_glyphs` *succeed* — the duplicate
filter of lines 115-127 drops every occurrence of a duplicated char, so
the unmapped check never sees it and no `GlyphNotSupported` is returned.
Second: with a single unmapped codepoint the call does fail, but on a
fresh `(path, scale)` the handle counter (and spec registry) has already
been mutated, so the cache is not left exactly as it was. -/
theorem C3_counterexample :
    (∃ c', cache_glyphs disk_unmapped GliumFontCache.new 0 12 ['a', 'a'] =
      some (.ok 0, c')) ∧
    (∃ c', cache_glyphs disk_unmapped GliumFontCache.new 0 12 ['a'] =
      some (.error (.GlyphNotSupported ['a']), c') ∧
      c'.curr_font_handle ≠ GliumFontCache.new.curr_font_handle) :=
  ⟨⟨_, rfl⟩, ⟨_, rfl, by decide⟩⟩

/-- Claim C3 (amended): when at least one codepoint that survives the
duplicate filter (i.e. occurs exactly once in the charset) is unmapped,
`cache_glyphs` fails with `GlyphNotSupported` carrying exactly the
surviving unmapped codepoints in charset order; no committed glyph is
added or removed, the fonts table is untouched (so no codepoint of any
handle changes queryability), and the queue is left empty — but the font
registry may have gained a binding for a brand-new `(path, scale)` spec,
whose allocated handle is not rolled back.  Other specs' bindings are
unchanged. -/
theorem C3_glyph_not_supported (disk : Nat → Option FontModel)
    (c : GliumFontCache) (p : Nat) (s : ℚ) (cs : List Char) (font : FontModel)
    (hdisk : disk p = some font)
    (hclones : c.lookup_clones = 0)
    (hbad : (cs.filter (fun ch => cs.count ch == 1)).filter
        (fun ch => font.glyphId ch == 0) ≠ []) :
    ∃ c', cache_glyphs disk c p s cs =
        some (.error (.GlyphNotSupported
          ((cs.filter (fun ch => cs.count ch == 1)).filter
            (fun ch => font.glyphId ch == 0))), c') ∧
      c'.cache.cached = c.cache.cached ∧
      c'.fonts = c.fonts ∧
      c'.cache.queue = [] ∧
      (∀ fh ch, glyph_queryable c' fh ch ↔ glyph_queryable c fh ch) ∧
      ∀ fs', fs' ≠ (p, (⌊s * 100⌋).toNat) →
        assoc_find c'.font_handles fs' = assoc_find c.font_handles fs' := by
  rcases hfind : assoc_find c.font_handles (p, (⌊s * 100⌋).toNat) with _ | fh
  · refine ⟨{ c with
        curr_font_handle := c.curr_font_handle + 1,
        font_handles := c.font_handles ++
          [((p, (⌊s * 100⌋).toNat), c.curr_font_handle)],
        cache := { queue := [], cached := c.cache.cached } }, ?_, rfl, rfl,
        rfl, fun fh' ch => Iff.rfl, fun fs' hne => assoc_find_append_ne _ _ _ _ hne⟩
    simp [cache_glyphs, hdisk, hfind, get_next_font_handle, hclones]
    simpa using hbad
  · refine ⟨{ c with cache := { queue := [], cached := c.cache.cached } },
      ?_, rfl, rfl, rfl, fun fh' ch => Iff.rfl, fun fs' _ => rfl⟩
    simp [cache_glyphs, hdisk, hfind, hclones]
    simpa using hbad

/-- Witness for C3: against a fresh cache and a font mapping `'a'` but not
`'b'`, the charset `['a', 'b']` fails with exactly `['b']`, commits
nothing, and registers no font under any handle. -/
theorem C3_witness :
    ∃ c', cache_glyphs disk_a_only GliumFontCache.new 0 12 ['a', 'b'] =
        some (.error (.GlyphNotSupported ['b']), c') ∧
      c'.cache.cached = [] ∧
      c'.fonts = [] ∧
      ∀ fh ch, glyph_queryable c' fh ch ↔
        glyph_queryable GliumFontCache.new fh ch := by
  have h := C3_glyph_not_supported disk_a_only GliumFontCache.new 0 12
    ['a', 'b'] font_a_only rfl rfl (by decide)
  obtain ⟨c', heq, h1, h2, _, h4, _⟩ := h
  have hfilter : ((['a', 'b'].filter (fun ch => ['a', 'b'].count ch == 1)).filter
      (fun ch => font_a_only.glyphId ch == 0)) = ['b'] := by decide
  rw [hfilter] at heq
  exact ⟨c', heq, h1.trans rfl, h2.trans rfl, h4⟩

/-! ### cache_glyphs idempotence and extension (C4) -/

/-- What a successful `cache_glyphs` call guarantees about the state it
returns: the `(path, scale)` spec resolves to the returned handle, no
lookup clone is alive, the font is registered under the handle, the queue
is empty, every charset codepoint surviving the duplicate filter is mapped
by the font, and each such codepoint is committed for the handle. -/
theorem cache_glyphs_ok_post (disk : Nat → Option FontModel)
    (c : GliumFontCache) (p : Nat) (s : ℚ) (cs : List Char) (font : FontModel)
    (h : Nat) (c1 : GliumFontCache)
    (hdisk : disk p = some font)
    (hok : cache_glyphs disk c p s cs = some (.ok h, c1)) :
    assoc_find c1.font_handles (p, (⌊s * 100⌋).toNat) = some h ∧
    c1.lookup_clones = 0 ∧
    (assoc_find c1.fonts h).isSome = true ∧
    c1.cache.queue = [] ∧
    (∀ ch ∈ cs.filter (fun ch => cs.count ch == 1), font.glyphId ch ≠ 0) ∧
    (∀ ch ∈ cs.filter (fun ch => cs.count ch == 1),
      (h, ch) ∈ c1.cache.cached) := by
  rcases hfind : assoc_find c.font_handles (p, (⌊s * 100⌋).toNat) with _ | fh0
  · simp only [cache_glyphs, hdisk, hfind, get_next_font_handle] at hok
    split at hok
    case isTrue => simp at hok
    case isFalse hcl =>
      split at hok
      case isTrue => simp at hok
      case isFalse hbad =>
        simp only [Option.some.injEq, Prod.mk.injEq, Except.ok.injEq] at hok
        obtain ⟨hh, hc1⟩ := hok
        subst hh
        subst hc1
        have hcl0 : c.lookup_clones = 0 := by simpa using not_ne_iff.mp hcl
        have hgnf : (cs.filter (fun ch => cs.count ch == 1)).filter
            (fun ch => font.glyphId ch == 0) = [] := not_ne_iff.mp hbad
        have hmap : ∀ ch ∈ cs.filter (fun ch => cs.count ch == 1),
            font.glyphId ch ≠ 0 := by
          intro ch hch
          have := List.filter_eq_nil_iff.mp hgnf ch hch
          simpa using this
        have hq6 : ∀ ch ∈ cs.filter (fun ch => cs.count ch == 1),
            (c.curr_font_handle, ch) ∈ c.cache.cached ++
              ((cs.filter (fun ch => cs.count ch == 1)).filter
                (fun ch => font.glyphId ch != 0 &&
                  !(c.cache.cached.contains (c.curr_font_handle, ch)))).map
                (fun ch => (c.curr_font_handle, ch)) := by
          intro ch hch
          by_cases hcc : (c.curr_font_handle, ch) ∈ c.cache.cached
          · exact List.mem_append.mpr (Or.inl hcc)
          · refine List.mem_append.mpr (Or.inr (List.mem_map_of_mem _ ?_))
            refine List.mem_filter.mpr ⟨hch, ?_⟩
            simp [hmap ch hch, hcc]
        refine ⟨?_, ?_, ?_, ?_, hmap, ?_⟩
        · cases hf : (assoc_find c.fonts c.curr_font_handle).isSome <;>
            simp [hf, assoc_find_append_self _ _ _ hfind]
        · cases hf : (assoc_find c.fonts c.curr_font_handle).isSome <;>
            simp [hf, hcl0]
        · cases hf : (assoc_find c.fonts c.curr_font_handle).isSome
          · have hnone : assoc_find c.fonts c.curr_font_handle = none :=
              Option.not_isSome_iff_eq_none.mp (by simp [hf])
            simp [hf, assoc_find_append_self _ _ _ hnone]
          · simp [hf]
        · cases hf : (assoc_find c.fonts c.curr_font_handle).isSome <;>
            simp [hf]
        · intro ch hch
          cases hf : (assoc_find c.fonts c.curr_font_handle).isSome <;>
            simp only [hf, Bool.false_eq_true, if_true, if_false,
              ite_true, ite_false] <;>
            simpa using hq6 ch hch
  · simp only [cache_glyphs, hdisk, hfind] at hok
    split at hok
    case isTrue => simp at hok
    case isFalse hcl =>
      split at hok
      case isTrue => simp at hok
      case isFalse hbad =>
        simp only [Option.some.injEq, Prod.mk.injEq, Except.ok.injEq] at hok
        obtain ⟨hh, hc1⟩ := hok
        subst hh
        subst hc1
        have hcl0 : c.lookup_clones = 0 := by simpa using not_ne_iff.mp hcl
        have hgnf : (cs.filter (fun ch => cs.count ch == 1)).filter
            (fun ch => font.glyphId ch == 0) = [] := not_ne_iff.mp hbad
        have hmap : ∀ ch ∈ cs.filter (fun ch => cs.count ch == 1),
            font.glyphId ch ≠ 0 := by
          intro ch hch
          have := List.filter_eq_nil_iff.mp hgnf ch hch
          simpa using this
        have hq6 : ∀ ch ∈ cs.filter (fun ch => cs.count ch == 1),
            (fh0, ch) ∈ c.cache.cached ++
              ((cs.filter (fun ch => cs.count ch == 1)).filter
                (fun ch => font.glyphId ch != 0 &&
                  !(c.cache.cached.contains (fh0, ch)))).map
                (fun ch => (fh0, ch)) := by
          intro ch hch
          by_cases hcc : (fh0, ch) ∈ c.cache.cached
          · exact List.mem_append.mpr (Or.inl hcc)
          · refine List.mem_append.mpr (Or.inr (List.mem_map_of_mem _ ?_))
            refine List.mem_filter.mpr ⟨hch, ?_⟩
            simp [hmap ch hch, hcc]
        refine ⟨?_, ?_, ?_, ?_, hmap, ?_⟩
        · cases hf : (assoc_find c.fonts fh0).isSome <;> simp [hf, hfind]
        · cases hf : (assoc_find c.fonts fh0).isSome <;> simp [hf, hcl0]
        · cases hf : (assoc_find c.fonts fh0).isSome
          · have hnone : assoc_find c.fonts fh0 = none :=
              Option.not_isSome_iff_eq_none.mp (by simp [hf])
            simp [hf, assoc_find_append_self _ _ _ hnone]
          · simp [hf]
        · cases hf : (assoc_find c.fonts fh0).isSome <;> simp [hf]
        · intro ch hch
          cases hf : (assoc_find c.fonts fh0).isSome <;>
            simp only [hf, Bool.false_eq_true, if_true, if_false,
              ite_true, ite_false] <;>
            simpa using hq6 ch hch

/-- Claim C4: if `cache_glyphs(p, s, cs)` succeeds returning handle `h`
and state `c1`, then the identical call on `c1` succeeds, returns the same
`h`, and changes nothing at all (in particular the glyph set does not
grow); and any successful later call with the same `(p, s)` and additional
codepoints returns the same `h` and changes the committed glyph set only
by appending entries of handle `h`. -/
theorem C4_cache_glyphs_idempotent (disk : Nat → Option FontModel)
    (c : GliumFontCache) (p : Nat) (s : ℚ) (cs : List Char) (font : FontModel)
    (h : Nat) (c1 : GliumFontCache)
    (hdisk : disk p = some font)
    (hok : cache_glyphs disk c p s cs = some (.ok h, c1)) :
    cache_glyphs disk c1 p s cs = some (.ok h, c1) ∧
    ∀ (extra : List Char) (h2 : Nat) (c2 : GliumFontCache),
      cache_glyphs disk c1 p s (cs ++ extra) = some (.ok h2, c2) →
      h2 = h ∧ ∃ news, c2.cache.cached = c1.cache.cached ++ news ∧
        ∀ pr ∈ news, pr.1 = h := by
  obtain ⟨hfind1, hcl1, hfonts1, hq1, hmap, hcached⟩ :=
    cache_glyphs_ok_post disk c p s cs font h c1 hdisk hok
  have hgnf : (cs.filter (fun ch => cs.count ch == 1)).filter
      (fun ch => font.glyphId ch == 0) = [] :=
    List.filter_eq_nil_iff.mpr (fun ch hch => by simp [hmap ch hch])
  have hqd : (cs.filter (fun ch => cs.count ch == 1)).filter
      (fun ch => font.glyphId ch != 0 &&
        !(c1.cache.cached.contains (h, ch))) = [] :=
    List.filter_eq_nil_iff.mpr (fun ch hch => by simp [hcached ch hch])
  constructor
  · simp only [cache_glyphs, hdisk, hfind1, hcl1, hgnf, hqd]
    simp only [ne_eq, not_true_eq_false, if_false, List.map_nil,
      List.append_nil, hfonts1, if_true, ite_true, reduceIte]
    simp [hfonts1]
    rw [← hq1, ← hcl1]
  · intro extra h2 c2 hok2
    simp only [cache_glyphs, hdisk, hfind1, hcl1] at hok2
    simp only [ne_eq, not_true_eq_false, if_false, reduceIte] at hok2
    split at hok2
    case isTrue => simp at hok2
    case isFalse hbad =>
      simp only [hfonts1, if_true, ite_true, Option.some.injEq,
        Prod.mk.injEq, Except.ok.injEq] at hok2
      obtain ⟨hh2, hc2⟩ := hok2
      subst hh2
      subst hc2
      refine ⟨rfl, _, rfl, ?_⟩
      intro pr hpr
      obtain ⟨ch, _, hpr⟩ := List.mem_map.mp hpr
      simp [← hpr]

/-- Witness for C4 at concrete inputs: caching `['a']` for a font mapping
everything succeeds with handle 0; the identical repeat call is a complete
no-op returning handle 0; extending to `['a'] ++ ['b']` also returns
handle 0. -/
theorem C4_witness :
    ∃ c1, cache_glyphs disk_total GliumFontCache.new 0 12 ['a'] =
        some (.ok 0, c1) ∧
      cache_glyphs disk_total c1 0 12 ['a'] = some (.ok 0, c1) ∧
      ∀ h2 c2, cache_glyphs disk_total c1 0 12 (['a'] ++ ['b']) =
          some (.ok h2, c2) → h2 = 0 := by
  obtain ⟨c1, h1⟩ : ∃ c1, cache_glyphs disk_total GliumFontCache.new 0 12
      ['a'] = some (.ok 0, c1) := ⟨_, rfl⟩
  have h := C4_cache_glyphs_idempotent disk_total GliumFontCache.new 0 12
    ['a'] font_total 0 c1 rfl h1
  exact ⟨c1, h1, h.1, fun h2 c2 hok2 => (h.2 ['b'] h2 c2 hok2).1⟩

/-! ### text runs and the fallback glyph (C9) -/

/-- Claim C9 counterexample: `text` *can* fail as a whole because of an
uncached codepoint.  With handle 0 registered, every codepoint mapped, and
nothing cached — in particular `'?'` itself — rendering `"a"` panics: the
rect lookup for `'a'` fails, the fallback rect lookup for `'?'` fails too,
and the source `.unwrap()`s it (controller.rs lines 395-399). -/
theorem C9_counterexample :
    text lookup_uncached ['a'] (0, 0) 0 (1, 1, 1, 1) = none := rfl

/-- When the handle is registered, `'?'` is mapped and its rect is cached,
one `text` loop iteration always produces a state (no panic). -/
theorem text_step_isSome (L : GliumGlyphLookup) (fh : Nat)
    (tint : ℚ × ℚ × ℚ × ℚ) (f0 font : TextFont) (sc : ℚ)
    (hfont : assoc_find L.fonts fh = some (font, sc))
    (hq : font.glyphId '?' ≠ 0)
    (hqc : (L.cache_rect fh '?').isSome = true)
    (st : TextState) (c : Char) :
    (text_step L fh tint f0 st c).isSome = true := by
  have hq' : get_glyph L fh '?' = some (font, '?') := by
    simp [get_glyph, hfont, hq]
  obtain ⟨ro, hro⟩ := Option.isSome_iff_exists.mp hqc
  have hrect : lookup_rect_for L fh '?' = .ok ro := by
    simp [lookup_rect_for, hq', hro]
  rcases hg : get_glyph L fh c with _ | fg
  · have hrc : lookup_rect_for L fh c = .error () := by
      simp [lookup_rect_for, hg]
    cases ro with
    | none => simp [text_step, hg, hq', hrc, hrect]
    | some uv => simp [text_step, hg, hq', hrc, hrect]
  · obtain ⟨f, gc⟩ := fg
    rcases hcr : L.cache_rect fh gc with _ | ro'
    · by_cases hcg : L.cache_rect fh c = none
      · have hrc : lookup_rect_for L fh c = .error () := by
          simp [lookup_rect_for, hg, hcg]
        cases ro with
        | none => simp [text_step, hg, hrc, hrect]
        | some uv => simp [text_step, hg, hrc, hrect]
      · obtain ⟨ro2, hro2⟩ := Option.ne_none_iff_exists.mp hcg
        have hrc : lookup_rect_for L fh c = .ok ro2 := by
          simp [lookup_rect_for, hg, ← hro2]
        cases ro2 with
        | none => simp [text_step, hg, hrc]
        | some uv => simp [text_step, hg, hrc]
    · by_cases hcg : L.cache_rect fh c = none
      · have hrc : lookup_rect_for L fh c = .error () := by
          simp [lookup_rect_for, hg, hcg]
        cases ro with
        | none => simp [text_step, hg, hrc, hrect]
        | some uv => simp [text_step, hg, hrc, hrect]
      · obtain ⟨ro2, hro2⟩ := Option.ne_none_iff_exists.mp hcg
        have hrc : lookup_rect_for L fh c = .ok ro2 := by
          simp [lookup_rect_for, hg, ← hro2]
        cases ro2 with
        | none => simp [text_step, hg, hrc]
        | some uv => simp [text_step, hg, hrc]

/-- The whole `text` loop never panics under the same conditions. -/
theorem text_foldl_isSome (L : GliumGlyphLookup) (fh : Nat)
    (tint : ℚ × ℚ × ℚ × ℚ) (f0 font : TextFont) (sc : ℚ)
    (hfont : assoc_find L.fonts fh = some (font, sc))
    (hq : font.glyphId '?' ≠ 0)
    (hqc : (L.cache_rect fh '?').isSome = true) :
    ∀ (s : List Char) (st : TextState),
      (List.foldlM (text_step L fh tint f0) st s).isSome = true
  | [], _ => rfl
  | c :: cs, st => by
    obtain ⟨st', hst⟩ := Option.isSome_iff_exists.mp
      (text_step_isSome L fh tint f0 font sc hfont hq hqc st c)
    rw [List.foldlM_cons, hst]
    exact text_foldl_isSome L fh tint f0 font sc hfont hq hqc cs st'

/-- Claim C9 (amended): provided the handle is registered, `'?'` is mapped
by the font and `'?'`'s rect is cached, `text` never fails for any input
string; and a mapped codepoint that was never cached is drawn with the
fallback glyph's UV rect — its quad's texture coordinates are the corners
of `'?'`'s rect — while the cursor still advances by that codepoint's
left-side-bearing plus advance-width (plus kerning against the previous
glyph id) and the bounding-box width accumulates its advance-width. -/
theorem C9_text_fallback (L : GliumGlyphLookup) (fh : Nat) (font : TextFont)
    (sc : ℚ)
    (hfont : assoc_find L.fonts fh = some (font, sc))
    (hq : font.glyphId '?' ≠ 0)
    (hqc : (L.cache_rect fh '?').isSome = true) :
    (∀ (s : List Char) (pos : ℚ × ℚ) (tint : ℚ × ℚ × ℚ × ℚ),
      (text L s pos fh tint).isSome = true) ∧
    (∀ (tint : ℚ × ℚ × ℚ × ℚ) (st : TextState) (c : Char) (u0 v0 u1 v1 : ℚ),
      font.glyphId c ≠ 0 → L.cache_rect fh c = none →
      L.cache_rect fh '?' = some (some (u0, v0, u1, v1)) →
      ∃ st', text_step L fh tint font st c = some st' ∧
        st'.vertices.map Vertex.tex_coords =
          st.vertices.map Vertex.tex_coords ++
            [(u0, v0), (u1, v0), (u1, v1), (u0, v0), (u0, v1), (u1, v1)] ∧
        st'.cursor.1 = st.cursor.1 +
          (match st.last_glyph_id with
            | some lg => font.pair_kerning lg (font.glyphId c)
            | none => 0) +
          (font.h_metrics c).left_side_bearing +
          (font.h_metrics c).advance_width ∧
        st'.last_glyph_id = some (font.glyphId c) ∧
        st'.bb_x = st.bb_x + (font.h_metrics c).advance_width) := by
  constructor
  · intro s pos tint
    have hfold := text_foldl_isSome L fh tint font font sc hfont hq hqc s
      ⟨pos, none, 0, 0, []⟩
    obtain ⟨st, hst⟩ := Option.isSome_iff_exists.mp hfold
    simp [text, hfont, hst]
  · intro tint st c u0 v0 u1 v1 hc hnone hqr
    have hg : get_glyph L fh c = some (font, c) := by
      simp [get_glyph, hfont, hc]
    have hrc : lookup_rect_for L fh c = .error () := by
      simp [lookup_rect_for, hg, hnone]
    have hg' : get_glyph L fh '?' = some (font, '?') := by
      simp [get_glyph, hfont, hq]
    have hr' : lookup_rect_for L fh '?' = .ok (some (u0, v0, u1, v1)) := by
      simp [lookup_rect_for, hg', hqr]
    simp only [text_step, hg, hrc, hr', Option.orElse]
    refine ⟨_, rfl, ?_, ?_, ?_, ?_⟩
    · simp
    · simp
    · simp
    · simp

/-- Witness for C9 at concrete inputs: with `'?'` mapped and cached for
handle 0, `text` succeeds on `"ab"`, and the single mapped-but-uncached
codepoint `'a'` is drawn with `'?'`'s UV corners while advancing the
cursor by `'a'`'s metrics. -/
theorem C9_witness :
    (text lookup_q ['a', 'b'] (0, 0) 0 (1, 1, 1, 1)).isSome = true ∧
    (∃ st', text_step lookup_q 0 (1, 1, 1, 1) textfont_q
        ⟨(0, 0), none, 0, 0, []⟩ 'a' = some st' ∧
      st'.vertices.map Vertex.tex_coords =
        [(0, 0), (1, 0), (1, 1), (0, 0), (0, 1), (1, 1)] ∧
      st'.cursor.1 = 0 + 0 + 1 + 10 ∧
      st'.last_glyph_id = some 1 ∧
      st'.bb_x = 0 + 10) := by
  have h := C9_text_fallback lookup_q 0 textfont_q 12 rfl (by decide) rfl
  refine ⟨h.1 ['a', 'b'] (0, 0) (1, 1, 1, 1), ?_⟩
  obtain ⟨st', h1, h2, h3, h4, h5⟩ :=
    h.2 (1, 1, 1, 1) ⟨(0, 0), none, 0, 0, []⟩ 'a' 0 0 1 1 (by decide) rfl rfl
  refine ⟨st', h1, by simpa using h2, ?_, ?_, ?_⟩
  · have := h3
    simp only [textfont_q] at this
    simpa using this
  · have := h4
    simp only [textfont_q] at this
    simpa using this
  · have := h5
    simp only [textfont_q] at this
    simpa using this

end QuickGfx
